import Mathlib

/-!
# go-grok-go: the validation driver of `backend/main.go`

A shallow embedding of `validatePatterns` (main.go, lines 72-145) and of the
record types it uses.  The Grok engine `g.Parse` comes from the library
`github.com/vjeantet/grok`; the driver is embedded over an arbitrary `Parse`
that threads the engine's state, so that "Parse is not called" is the statement
that the engine state is returned untouched.
-/

namespace GoGrokGo

/-- Go `map[string]string` as handed back by `g.Parse`.  The driver only takes
`len` of it and stores it, so an association list is enough; the nil map and
the empty map are both `[]` (both have `len` 0). -/
abbrev Fields := List (String × String)

/-- Go `(map[string]string, error)`: the values and the error, where the error
is `none` for `nil` and `some msg` for an error whose `Error()` is `msg`. -/
abbrev ParseReturn := Fields × Option String

/-- The engine call `g.Parse(pattern, line)` over an engine state `σ`:
state before, template, line; gives the Go return pair and the state after. -/
abbrev ParseFn (σ : Type) := σ → String → String → ParseReturn × σ

/-- `type Pattern struct` (main.go 14-17). -/
structure Pattern where
  Name : String
  Pattern : String
  deriving DecidableEq, Repr

/-- `type ValidationRequest struct` (main.go 19-22). -/
structure ValidationRequest where
  LogLines : List String
  Patterns : List Pattern
  deriving DecidableEq, Repr

/-- `type ParsedResult struct` (main.go 24-29).  `Parsed` is `none` for the nil
map; `Error` is `""` for the zero value (both are dropped by `omitempty`). -/
structure ParsedResult where
  LineNumber : Nat
  Line : String
  Parsed : Option Fields
  Error : String
  deriving DecidableEq, Repr

/-- `type ValidationResponse struct` (main.go 31-35).  A nil `Results` slice is
`[]`. -/
structure ValidationResponse where
  Success : Bool
  Results : List ParsedResult
  Error : String
  deriving DecidableEq, Repr

/-- The three locals declared at main.go 111-113. -/
structure LoopVars where
  matched : Bool
  parsed : Option Fields
  lastError : String
  deriving DecidableEq, Repr

/-- `var matched bool; var parsed map[string]string; var lastError string`. -/
def LoopVars.zero : LoopVars := ⟨false, none, ""⟩

/-- The inner loop `for _, pattern := range req.Patterns` (main.go 115-126). -/
def patternLoop {σ : Type} (Parse : ParseFn σ) (line : String) :
    List Pattern → LoopVars → σ → LoopVars × σ
  | [], vars, g => (vars, g)
  | pattern :: rest, vars, g =>
    match Parse g pattern.Pattern line with
    | ((_, some err), g1) =>
      -- lastError = err.Error(); continue
      patternLoop Parse line rest { vars with lastError := err } g1
    | ((values, none), g1) =>
      if values.length > 0 then
        -- matched = true; parsed = values; break
        ({ vars with matched := true, parsed := some values }, g1)
      else
        patternLoop Parse line rest vars g1

/-- The body of the outer loop for the line at 0-based index `i`
(main.go 102-138): the Line Result appended to `results`. -/
def lineResult {σ : Type} (Parse : ParseFn σ) (patterns : List Pattern)
    (i : Nat) (line : String) (g : σ) : ParsedResult × σ :=
  if line = "" then
    ({ LineNumber := i + 1, Line := line, Parsed := none, Error := "Empty log line" }, g)
  else
    let out := patternLoop Parse line patterns LoopVars.zero g
    let vars := out.1
    let result : ParsedResult :=
      { LineNumber := i + 1, Line := line, Parsed := vars.parsed, Error := "" }
    let result :=
      if !vars.matched && vars.lastError != "" then
        { result with Error := vars.lastError }
      else result
    (result, out.2)

/-- The outer loop `for i, line := range req.LogLines` (main.go 101-139),
from index `i` on, appending to `results`. -/
def linesLoop {σ : Type} (Parse : ParseFn σ) (patterns : List Pattern) :
    List String → Nat → List ParsedResult → σ → List ParsedResult × σ
  | [], _, results, g => (results, g)
  | line :: rest, i, results, g =>
    let out := lineResult Parse patterns i line g
    linesLoop Parse patterns rest (i + 1) (results ++ [out.1]) out.2

/-- What `c.JSON(status, body)` sends. -/
structure Reply where
  status : Nat
  body : ValidationResponse
  deriving DecidableEq, Repr

/-- `func validatePatterns(c *gin.Context)` (main.go 72-145).  `bound` is what
`c.BindJSON(&req)` produced (`none` when it returned an error) and `g` is the
engine built by `grok.NewWithConfig` at line 98. -/
def validatePatterns {σ : Type} (Parse : ParseFn σ)
    (bound : Option ValidationRequest) (g : σ) : Reply × σ :=
  match bound with
  | none =>
    (⟨400, { Success := false, Results := [], Error := "Invalid request format" }⟩, g)
  | some req =>
    if req.LogLines.length = 0 then
      (⟨400, { Success := false, Results := [], Error := "No log lines provided" }⟩, g)
    else if req.Patterns.length = 0 then
      (⟨400, { Success := false, Results := [], Error := "No patterns provided" }⟩, g)
    else
      let out := linesLoop Parse req.Patterns req.LogLines 0 [] g
      (⟨200, { Success := true, Results := out.1, Error := "" }⟩, out.2)

/-- An engine whose state is the log of the `(template, line)` calls made so
far and whose return value is `f template line`. -/
def logged (f : String → String → ParseReturn) : ParseFn (List (String × String)) :=
  fun g template line => (f template line, g ++ [(template, line)])

/-- A small concrete engine used to exercise the driver: template `"bad"` is
malformed, `"worse"` is malformed with another reason, `"lit"` matches with no
fields, `"one"` and `"two"` match with one and two fields, anything else does
not match. -/
def toyParse (template line : String) : ParseReturn :=
  if template = "bad" then ([], some "unknown pattern")
  else if template = "worse" then ([], some "cyclic reference")
  else if template = "lit" then ([], none)
  else if template = "one" then ([("a", line)], none)
  else if template = "two" then ([("a", line), ("b", "x")], none)
  else ([], none)

/-- The test under which the inner loop breaks (main.go 117-125):
`err == nil` and `len(values) > 0`. -/
def Hit (r : ParseReturn) : Prop := r.2 = none ∧ r.1 ≠ []

instance (r : ParseReturn) : Decidable (Hit r) := by
  unfold Hit; exact inferInstance

/-- The return of a pattern that succeeds with no fields: `err == nil` and
`len(values) == 0`. -/
def Blank (r : ParseReturn) : Prop := r.2 = none ∧ r.1 = []

instance (r : ParseReturn) : Decidable (Blank r) := by
  unfold Blank; exact inferInstance

/-- The reasons of the patterns whose `Parse` returns an error, in input order. -/
def reasons (f : String → String → ParseReturn) (line : String) (ps : List Pattern) :
    List String :=
  ps.filterMap (fun p => (f p.Pattern line).2)

/-- The engine with no state that returns `f template line`. -/
def pureEngine (f : String → String → ParseReturn) : ParseFn Unit :=
  fun _ template line => (f template line, ())

/-! ## The Grok engine, from the specification

`g.Parse` belongs to `github.com/vjeantet/grok`, which is not part of the
sources; the definitions of this namespace follow §3, §4.1 and §4.2 of the
specification instead. -/

namespace Grok

/-- Modelled from the spec: the Named Pattern Library of §3, which the Grok
library (not under src/) loads at start: a mapping from pattern name to
regular-expression body, here as an association list. -/
abbrev Library := List (String × String)

/-- Modelled from the spec: the error taxonomy of §7 for the Pattern Compiler,
which lives in the Grok library. -/
inductive CompileError where
  | UnknownPattern (name : String)
  | CyclicReference (name : String)
  | InvalidSyntax (message : String)
  deriving DecidableEq, Repr

/-- Modelled from the spec: the malformed-reason string of a compile error
(§4.2 `Malformed(reason)`); §9 leaves the wording open, only whether a reason is
present is contractual. -/
def CompileError.reason : CompileError → String
  | .UnknownPattern name => "no pattern found for %\x7b" ++ name ++ "\x7d"
  | .CyclicReference name => "cyclic reference through %\x7b" ++ name ++ "\x7d"
  | .InvalidSyntax message => "error parsing regexp: " ++ message

/-- Modelled from the spec: the pieces §4.1 step 1 scans a template into,
literal text and `%{...}` placeholders. -/
inductive Segment where
  | literal (text : List Char)
  | placeholder (content : List Char)
  deriving DecidableEq, Repr

/-- Modelled from the spec: §4.1 step 1, the left-to-right scan of a template
for placeholder syntax.  `lit` is the literal text read so far (latest first)
and the third argument is the content of an open placeholder, if any; a
placeholder that is never closed stays literal text. -/
def scanTemplate : List Char → List Char → Option (List Char) → List Segment
  | [], lit, none => [.literal lit.reverse]
  | [], lit, some content => [.literal (lit.reverse ++ '%' :: '\x7b' :: content.reverse)]
  | c :: rest, lit, none =>
    if c = '\x7b' then
      match lit with
      | p :: lit1 =>
        if p = '%' then scanTemplate rest lit1 (some [])
        else scanTemplate rest (c :: lit) none
      | [] => scanTemplate rest (c :: lit) none
    else scanTemplate rest (c :: lit) none
  | c :: rest, lit, some content =>
    if c = '\x7d' then
      .literal lit.reverse :: .placeholder content.reverse :: scanTemplate rest [] none
    else scanTemplate rest lit (some (c :: content))

/-- Modelled from the spec: the split of a placeholder's content
`NAME:field:type` at its colons (§4.1, Inputs). -/
def splitColon : List Char → List Char → List (List Char)
  | [], acc => [acc.reverse]
  | c :: rest, acc =>
    if c = ':' then acc.reverse :: splitColon rest [] else splitColon rest (c :: acc)

/-- Modelled from the spec: §4.1 step 4.  A placeholder with a field name is
wrapped in a capturing group that carries the name; one without is wrapped in a
non-capturing group when `namedCapturesOnly` is set, and in a capturing group
with no field name otherwise. -/
def wrapGroup (namedCapturesOnly : Bool) (field : Option (List Char)) (sub : List Char) :
    List Char :=
  match field with
  | some name => "(?P<".toList ++ name ++ '>' :: sub ++ [')']
  | none =>
    if namedCapturesOnly then "(?:".toList ++ sub ++ [')'] else '(' :: sub ++ [')']

/-- Modelled from the spec: the `field_name` part of a placeholder, if it has
one (§4.1, Inputs); the type hint after it is ignored. -/
def fieldOf (parts : List (List Char)) : Option (List Char) :=
  match parts with
  | _ :: field :: _ => if field = [] then none else some field
  | _ => none

/-- Modelled from the spec: the `SUBPATTERN_NAME` part of a placeholder (§4.1,
Inputs). -/
def nameOf (parts : List (List Char)) : List Char :=
  match parts with
  | name :: _ => name
  | [] => []

/-- Modelled from the spec: §4.1 steps 2-5 over the segments of one text, with
`inner` expanding the body of a referenced sub-pattern: look the name up
(missing gives `UnknownPattern`), refuse a name already being expanded
(`CyclicReference`), wrap the expanded body and concatenate. -/
def expandWith (library : Library) (namedCapturesOnly : Bool)
    (inner : List String → List Char → Except CompileError (List Char))
    (visited : List String) : List Segment → Except CompileError (List Char)
  | [] => .ok []
  | .literal text :: rest =>
    match expandWith library namedCapturesOnly inner visited rest with
    | .error e => .error e
    | .ok tail => .ok (text ++ tail)
  | .placeholder content :: rest =>
    let parts := splitColon content []
    let name := String.mk (nameOf parts)
    if name ∈ visited then .error (.CyclicReference name)
    else
      match library.lookup name with
      | none => .error (.UnknownPattern name)
      | some body =>
        match inner (name :: visited) body.toList with
        | .error e => .error e
        | .ok sub =>
          match expandWith library namedCapturesOnly inner visited rest with
          | .error e => .error e
          | .ok tail => .ok (wrapGroup namedCapturesOnly (fieldOf parts) sub ++ tail)

/-- Modelled from the spec: §4.1 step 3, the depth-first recursive expansion
with a visited set.  `depth` bounds the nesting; `compile` starts it at one more
than the size of the library, which the visited set never lets it exhaust. -/
def expand (library : Library) (namedCapturesOnly : Bool) :
    Nat → List String → List Char → Except CompileError (List Char)
  | 0, _, _ => .error (.CyclicReference "")
  | depth + 1, visited, text =>
    expandWith library namedCapturesOnly (expand library namedCapturesOnly depth) visited
      (scanTemplate text [] none)


/-- Modelled from the spec: a set of characters in a regular expression of the
Compiled Matcher (§3); the spec takes regular expressions as given, the dialect
modelled is single characters, `.`, the classes `\d \w \s` and their
complements, and bracket classes with ranges. -/
inductive CharSet where
  | nothing
  | single (c : Char)
  | range (lo hi : Char)
  | anyChar
  | digit
  | word
  | space
  | not (s : CharSet)
  | union (a b : CharSet)
  deriving DecidableEq, Repr

/-- Modelled from the spec: whether a character belongs to a character set of
the regular expression. -/
def CharSet.mem : CharSet → Char → Bool
  | .nothing, _ => false
  | .single d, c => c = d
  | .range lo hi, c => lo.toNat ≤ c.toNat && c.toNat ≤ hi.toNat
  | .anyChar, c => c ≠ '\n'
  | .digit, c => 48 ≤ c.toNat && c.toNat ≤ 57
  | .word, c =>
    (48 ≤ c.toNat && c.toNat ≤ 57) || (65 ≤ c.toNat && c.toNat ≤ 90) ||
      (97 ≤ c.toNat && c.toNat ≤ 122) || c = '_'
  | .space, c => c = ' ' || c = '\t' || c = '\n' || c = '\r' || c.toNat = 12
  | .not s, c => !(s.mem c)
  | .union a b, c => a.mem c || b.mem c

/-- Modelled from the spec: the "executable regular expression" of a Compiled
Matcher (§3, glossary): concatenation, alternation, repetition, anchors and
numbered capture groups. -/
inductive Re where
  | empty
  | set (s : CharSet)
  | bol
  | eol
  | seq (a b : Re)
  | alt (a b : Re)
  | star (a : Re)
  | group (idx : Nat) (a : Re)
  deriving DecidableEq, Repr

/-- Modelled from the spec: the lexical items of the resolved regular
expression text that §4.1 step 5 builds a matcher from. -/
inductive Token where
  | set (s : CharSet)
  | bol
  | eol
  | star
  | plus
  | quest
  | bar
  | openGroup (capture : Bool) (name : Option String)
  | close
  deriving DecidableEq, Repr

/-- Modelled from the spec: the reading state of the lexer of §4.1 step 5
(after a backslash, after an opening parenthesis, inside a group name, inside a
bracket class). -/
inductive LexMode where
  | normal
  | escape
  | opened
  | openedQ
  | openedP
  | groupName (acc : List Char)
  | bracket (acc : List Char) (escaped : Bool)
  deriving DecidableEq, Repr

/-- Modelled from the spec: the meaning of `\c` in the regular expression; a
letter or digit that is not a known class is `InvalidSyntax`. -/
def escapeSet (c : Char) : Except String CharSet :=
  if c = 'd' then .ok .digit
  else if c = 'w' then .ok .word
  else if c = 's' then .ok .space
  else if c = 'D' then .ok (.not .digit)
  else if c = 'W' then .ok (.not .word)
  else if c = 'S' then .ok (.not .space)
  else if c = 'n' then .ok (.single '\n')
  else if c = 't' then .ok (.single '\t')
  else if c = 'r' then .ok (.single '\r')
  else if CharSet.word.mem c then .error ("invalid escape sequence: \\" ++ String.mk [c])
  else .ok (.single c)

/-- Modelled from the spec: the reading state inside a bracket class (nothing
pending, after a backslash, one character read, a character and a dash read). -/
inductive ClassPending where
  | idle
  | escape
  | item (c : Char)
  | dash (lo : Char)
  deriving DecidableEq, Repr

/-- Modelled from the spec: the union of two character sets, either of which
may have failed to parse. -/
def joinSet (s : Except String CharSet) (rest : Except String CharSet) : Except String CharSet :=
  match s, rest with
  | .ok a, .ok b => .ok (.union a b)
  | .error e, _ => .error e
  | _, .error e => .error e

/-- Modelled from the spec: the items of a bracket class, single characters,
escapes and ranges `a-z`. -/
def classItems : List Char → ClassPending → Except String CharSet
  | [], .idle => .ok .nothing
  | [], .escape => .error "trailing backslash at end of expression"
  | [], .item a => .ok (.single a)
  | [], .dash a => .ok (.union (.single a) (.single '-'))
  | c :: rest, .idle =>
    if c = '\\' then classItems rest .escape else classItems rest (.item c)
  | c :: rest, .escape => joinSet (escapeSet c) (classItems rest .idle)
  | c :: rest, .item a =>
    if c = '-' then classItems rest (.dash a)
    else if c = '\\' then joinSet (.ok (.single a)) (classItems rest .escape)
    else joinSet (.ok (.single a)) (classItems rest (.item c))
  | c :: rest, .dash a =>
    if c = '\\' then .error "invalid character class range"
    else if c.toNat < a.toNat then .error "invalid character class range"
    else joinSet (.ok (.range a c)) (classItems rest .idle)

/-- Modelled from the spec: a bracket class, negated when it starts with `^`. -/
def classSet (raw : List Char) : Except String CharSet :=
  match raw with
  | [] => .error "missing closing ]"
  | c :: rest =>
    if c = '^' then
      match classItems rest .idle with
      | .ok s => .ok (.not s)
      | .error e => .error e
    else classItems raw .idle

/-- Modelled from the spec: §4.1 step 5, one character of regular expression
text outside any special state: the token it stands for, if any, and the state
it leads to. -/
def normalStep (c : Char) : Except String (Option Token × LexMode) :=
  if c = '\\' then .ok (none, .escape)
  else if c = '(' then .ok (none, .opened)
  else if c = ')' then .ok (some .close, .normal)
  else if c = '[' then .ok (none, .bracket [] false)
  else if c = '*' then .ok (some .star, .normal)
  else if c = '+' then .ok (some .plus, .normal)
  else if c = '?' then .ok (some .quest, .normal)
  else if c = '|' then .ok (some .bar, .normal)
  else if c = '^' then .ok (some .bol, .normal)
  else if c = '$' then .ok (some .eol, .normal)
  else if c = '.' then .ok (some (.set .anyChar), .normal)
  else if c = '\x7b' then .error "counted repetition is not supported"
  else .ok (some (.set (.single c)), .normal)

/-- Modelled from the spec: put a token in front of the tokens of the rest of
the text. -/
def emit (tok : Option Token) (rest : Except String (List Token)) : Except String (List Token) :=
  match rest with
  | .error e => .error e
  | .ok toks =>
    match tok with
    | some t => .ok (t :: toks)
    | none => .ok toks

/-- Modelled from the spec: §4.1 step 5, the text of the resolved regular
expression read into tokens; text that is not a regular expression of the
modelled dialect is reported with a message (`InvalidSyntax`). -/
def lex : List Char → LexMode → Except String (List Token)
  | [], .normal => .ok []
  | [], .escape => .error "trailing backslash at end of expression"
  | [], .opened => .ok [.openGroup true none]
  | [], .openedQ => .error "missing argument to repetition operator: ?"
  | [], .openedP => .error "invalid named capture"
  | [], .groupName _ => .error "invalid named capture"
  | [], .bracket _ _ => .error "missing closing ]"
  | c :: rest, .normal =>
    match normalStep c with
    | .error e => .error e
    | .ok (tok, mode) => emit tok (lex rest mode)
  | c :: rest, .escape =>
    match escapeSet c with
    | .error e => .error e
    | .ok s => emit (some (.set s)) (lex rest .normal)
  | c :: rest, .opened =>
    if c = '?' then lex rest .openedQ
    else
      match normalStep c with
      | .error e => .error e
      | .ok (tok, mode) => emit (some (.openGroup true none)) (emit tok (lex rest mode))
  | c :: rest, .openedQ =>
    if c = ':' then emit (some (.openGroup false none)) (lex rest .normal)
    else if c = 'P' then lex rest .openedP
    else .error "invalid or unsupported Perl syntax"
  | c :: rest, .openedP =>
    if c = '<' then lex rest (.groupName []) else .error "invalid named capture"
  | c :: rest, .groupName acc =>
    if c = '>' then
      if acc = [] then .error "invalid named capture"
      else emit (some (.openGroup true (some (String.mk acc.reverse)))) (lex rest .normal)
    else if CharSet.word.mem c then lex rest (.groupName (c :: acc))
    else .error "invalid named capture"
  | c :: rest, .bracket acc escaped =>
    if escaped then lex rest (.bracket (c :: acc) false)
    else if c = '\\' then lex rest (.bracket (c :: acc) true)
    else if c = ']' then
      match classSet acc.reverse with
      | .error e => .error e
      | .ok s => emit (some (.set s)) (lex rest .normal)
    else lex rest (.bracket (c :: acc) false)

/-- Modelled from the spec: a group under construction while the matcher is
built (§4.1 step 5): its capture ordinal if it captures, its finished
alternatives and the atoms of the current alternative (latest first), and
whether the latest atom already carries a repetition operator. -/
structure Frame where
  idx : Option Nat
  alts : List Re
  atoms : List Re
  repeated : Bool
  deriving DecidableEq, Repr

/-- Modelled from the spec: the concatenation of a list of expressions. -/
def seqOf : List Re → Re
  | [] => .empty
  | [a] => a
  | a :: rest => .seq a (seqOf rest)

/-- Modelled from the spec: the alternation of a list of expressions. -/
def altOf : List Re → Re
  | [] => .empty
  | [a] => a
  | a :: rest => .alt a (altOf rest)

/-- Modelled from the spec: the expression of a finished group. -/
def Frame.finish (fr : Frame) : Re :=
  let body := altOf ((seqOf fr.atoms.reverse :: fr.alts).reverse)
  match fr.idx with
  | some i => .group i body
  | none => body

/-- Modelled from the spec: add an atom to the current alternative. -/
def Frame.push (fr : Frame) (a : Re) : Frame :=
  { fr with atoms := a :: fr.atoms, repeated := false }

/-- Modelled from the spec: apply a repetition operator to the latest atom. -/
def Frame.applyRepeat (fr : Frame) (op : Re → Re) : Except String Frame :=
  match fr.atoms with
  | [] => .error "missing argument to repetition operator"
  | a :: rest =>
    if fr.repeated then .error "invalid nested repetition operator"
    else .ok { fr with atoms := op a :: rest, repeated := true }

/-- Modelled from the spec: §4.1 step 5, "attempt to build a live matcher":
tokens to an expression, with the ordinal→field-name table of §4.1 step 4
(`count` is the number of capture groups opened so far). -/
def parse : List Token → Frame → List Frame → Nat → List (Nat × String) →
    Except String (Re × List (Nat × String))
  | [], cur, [], _, names => .ok (cur.finish, names.reverse)
  | [], _, _ :: _, _, _ => .error "missing closing )"
  | tok :: rest, cur, stack, count, names =>
    match tok with
    | .set s => parse rest (cur.push (.set s)) stack count names
    | .bol => parse rest (cur.push .bol) stack count names
    | .eol => parse rest (cur.push .eol) stack count names
    | .star =>
      match cur.applyRepeat (fun a => .star a) with
      | .error e => .error e
      | .ok fr => parse rest fr stack count names
    | .plus =>
      match cur.applyRepeat (fun a => .seq a (.star a)) with
      | .error e => .error e
      | .ok fr => parse rest fr stack count names
    | .quest =>
      match cur.applyRepeat (fun a => .alt a .empty) with
      | .error e => .error e
      | .ok fr => parse rest fr stack count names
    | .bar =>
      parse rest { cur with alts := seqOf cur.atoms.reverse :: cur.alts, atoms := [],
                            repeated := false } stack count names
    | .openGroup true name =>
      parse rest ⟨some (count + 1), [], [], false⟩ (cur :: stack) (count + 1)
        (match name with
         | some n => (count + 1, n) :: names
         | none => names)
    | .openGroup false _ => parse rest ⟨none, [], [], false⟩ (cur :: stack) count names
    | .close =>
      match stack with
      | [] => .error "unexpected )"
      | parent :: below => parse rest (parent.push cur.finish) below count names

/-- Modelled from the spec: a position of the Matching Engine (§4.2) in a line:
the offset reached, the text left and the capture groups recorded so far
(latest first). -/
structure Thread where
  offset : Nat
  rest : List Char
  caps : List (Nat × List Char)
  deriving DecidableEq, Repr

/-- Modelled from the spec: greedy repetition of `step`; an iteration must
consume text, so `fuel` equal to the length of the text left is never
exhausted. -/
def starAll (step : Thread → List Thread) : Nat → Thread → List Thread
  | 0, t => [t]
  | fuel + 1, t =>
    ((step t).filter (fun u => u.rest.length < t.rest.length)).flatMap (starAll step fuel)
      ++ [t]

/-- Modelled from the spec: §4.2, all the ways the expression matches at a
position, in order of preference (leftmost alternative first, longest
repetition first). -/
def matchAll : Re → Thread → List Thread
  | .empty, t => [t]
  | .set s, t =>
    match t.rest with
    | c :: cs => if s.mem c then [⟨t.offset + 1, cs, t.caps⟩] else []
    | [] => []
  | .bol, t => if t.offset = 0 then [t] else []
  | .eol, t => if t.rest = [] then [t] else []
  | .seq a b, t => (matchAll a t).flatMap (matchAll b)
  | .alt a b, t => matchAll a t ++ matchAll b t
  | .star a, t => starAll (matchAll a) t.rest.length t
  | .group idx a, t =>
    (matchAll a t).map (fun u =>
      { u with caps := (idx, t.rest.take (t.rest.length - u.rest.length)) :: u.caps })

/-- Modelled from the spec: §4.2, the unanchored match: the preferred match at
the first offset of the line that has one. -/
def search (re : Re) : Nat → List Char → Option (List (Nat × List Char))
  | offset, [] =>
    match matchAll re ⟨offset, [], []⟩ with
    | u :: _ => some u.caps
    | [] => none
  | offset, c :: cs =>
    match matchAll re ⟨offset, c :: cs, []⟩ with
    | u :: _ => some u.caps
    | [] => search re (offset + 1) cs

/-- Modelled from the spec: the Compiled Matcher of §3, the built regular
expression with the ordinal→field-name table. -/
structure CompiledMatcher where
  regex : Re
  fieldNames : List (Nat × String)
  deriving DecidableEq, Repr

/-- Modelled from the spec: the Match Attempt Result of §3. -/
inductive MatchAttemptResult where
  | Matched (fields : Fields)
  | NoMatch
  | Malformed (reason : String)
  deriving DecidableEq, Repr

/-- Modelled from the spec: the Pattern Compiler contract of §4.1,
`compile(template, library, options)`. -/
def compile (template : String) (library : Library) (namedCapturesOnly : Bool) :
    Except CompileError CompiledMatcher :=
  match expand library namedCapturesOnly (library.length + 1) [] template.toList with
  | .error e => .error e
  | .ok text =>
    match lex text .normal with
    | .error message => .error (.InvalidSyntax message)
    | .ok tokens =>
      match parse tokens ⟨none, [], [], false⟩ [] 0 [] with
      | .error message => .error (.InvalidSyntax message)
      | .ok (re, names) => .ok ⟨re, names⟩

/-- Modelled from the spec: set a field of the mapping; a field name that is
already there takes the new value (last-wins, §9). -/
def setField (name value : String) : Fields → Fields
  | [] => [(name, value)]
  | (k, v) :: rest => if k = name then (k, value) :: rest else (k, v) :: setField name value rest

/-- Modelled from the spec: §4.2, pair each named capture group's substring
with its field name; a named group that took no part in the match gives the
empty substring. -/
def fieldsOf (caps : List (Nat × List Char)) : List (Nat × String) → Fields → Fields
  | [], acc => acc
  | (idx, name) :: rest, acc =>
    fieldsOf caps rest (setField name (String.mk ((caps.lookup idx).getD [])) acc)

/-- Modelled from the spec: the Matching Engine contract of §4.2, `tryMatch`;
a matcher that failed to compile is propagated as `Malformed(reason)`. -/
def tryMatch (matcher : Except CompileError CompiledMatcher) (line : String) :
    MatchAttemptResult :=
  match matcher with
  | .error e => .Malformed e.reason
  | .ok m =>
    match search m.regex 0 line.toList with
    | some caps => .Matched (fieldsOf caps m.fieldNames [])
    | none => .NoMatch

/-- Modelled from the spec: the call `g.Parse(pattern, line)` of the Grok
library as main.go line 116 sees it, with `NamedCapturesOnly: true` (line 98):
compile, try the match, and hand back the Go pair: the fields and no error for
`Matched`, an empty map and no error for `NoMatch`, the reason as error for
`Malformed`. -/
def Parse (library : Library) (template line : String) : ParseReturn :=
  match tryMatch (compile template library true) line with
  | .Matched fields => (fields, none)
  | .NoMatch => ([], none)
  | .Malformed reason => ([], some reason)

end Grok

/-! ## The inner loop -/

section InnerLoop

variable {σ : Type} {Parse : ParseFn σ} {f : String → String → ParseReturn}

theorem parse_eq (hdet : ∀ g t l, (Parse g t l).1 = f t l) (g : σ) (t l : String) :
    Parse g t l = (f t l, (Parse g t l).2) := by
  rw [← hdet g t l]

theorem patternLoop_cons_err (hdet : ∀ g t l, (Parse g t l).1 = f t l)
    (line : String) (p : Pattern) (rest : List Pattern) (vars : LoopVars) (g : σ)
    (e : String) (he : (f p.Pattern line).2 = some e) :
    patternLoop Parse line (p :: rest) vars g =
      patternLoop Parse line rest { vars with lastError := e } (Parse g p.Pattern line).2 := by
  rw [patternLoop, parse_eq hdet g p.Pattern line]
  rcases hf : f p.Pattern line with ⟨v, err⟩
  rw [hf] at he
  simp only at he
  subst he
  rfl

theorem patternLoop_cons_hit (hdet : ∀ g t l, (Parse g t l).1 = f t l)
    (line : String) (p : Pattern) (rest : List Pattern) (vars : LoopVars) (g : σ)
    (h : Hit (f p.Pattern line)) :
    patternLoop Parse line (p :: rest) vars g =
      ({ vars with matched := true, parsed := some (f p.Pattern line).1 },
        (Parse g p.Pattern line).2) := by
  rw [patternLoop, parse_eq hdet g p.Pattern line]
  rcases hf : f p.Pattern line with ⟨v, err⟩
  rw [hf] at h
  obtain ⟨h1, h2⟩ := h
  simp only at h1 h2
  subst h1
  have hpos : v.length > 0 := List.length_pos.mpr h2
  simp [hpos]

theorem patternLoop_cons_blank (hdet : ∀ g t l, (Parse g t l).1 = f t l)
    (line : String) (p : Pattern) (rest : List Pattern) (vars : LoopVars) (g : σ)
    (h : Blank (f p.Pattern line)) :
    patternLoop Parse line (p :: rest) vars g =
      patternLoop Parse line rest vars (Parse g p.Pattern line).2 := by
  rw [patternLoop, parse_eq hdet g p.Pattern line]
  rcases hf : f p.Pattern line with ⟨v, err⟩
  rw [hf] at h
  obtain ⟨h1, h2⟩ := h
  simp only at h1 h2
  subst h1 h2
  simp

/-- Every return is an error, a hit or a blank. -/
theorem return_cases (r : ParseReturn) : (∃ e, r.2 = some e) ∨ Hit r ∨ Blank r := by
  rcases r with ⟨v, err⟩
  cases err with
  | some e => exact Or.inl ⟨e, rfl⟩
  | none =>
    by_cases hv : v = []
    · exact Or.inr (Or.inr ⟨rfl, hv⟩)
    · exact Or.inr (Or.inl ⟨rfl, hv⟩)

/-- The loop variables after the inner loop depend on the engine only through
the values it returns, not through its state. -/
theorem patternLoop_vars_indep {τ : Type} {Parse2 : ParseFn τ}
    (hdet : ∀ g t l, (Parse g t l).1 = f t l)
    (hdet2 : ∀ g t l, (Parse2 g t l).1 = f t l)
    (line : String) (ps : List Pattern) :
    ∀ (vars : LoopVars) (g : σ) (g2 : τ),
      (patternLoop Parse line ps vars g).1 = (patternLoop Parse2 line ps vars g2).1 := by
  induction ps with
  | nil => intro vars g g2; rfl
  | cons p rest ih =>
    intro vars g g2
    rcases return_cases (f p.Pattern line) with ⟨e, he⟩ | h | h
    · rw [patternLoop_cons_err hdet line p rest vars g e he,
        patternLoop_cons_err hdet2 line p rest vars g2 e he]
      exact ih _ _ _
    · rw [patternLoop_cons_hit hdet line p rest vars g h,
        patternLoop_cons_hit hdet2 line p rest vars g2 h]
    · rw [patternLoop_cons_blank hdet line p rest vars g h,
        patternLoop_cons_blank hdet2 line p rest vars g2 h]
      exact ih _ _ _

theorem reasons_cons_err (line : String) (p : Pattern) (rest : List Pattern) (e : String)
    (he : (f p.Pattern line).2 = some e) :
    reasons f line (p :: rest) = e :: reasons f line rest := by
  simp [reasons, List.filterMap_cons, he]

theorem reasons_cons_ok (line : String) (p : Pattern) (rest : List Pattern)
    (he : (f p.Pattern line).2 = none) :
    reasons f line (p :: rest) = reasons f line rest := by
  simp [reasons, List.filterMap_cons, he]

theorem getLast?_cons_getD (e d : String) (l : List String) :
    ((e :: l).getLast?).getD d = (l.getLast?).getD e := by
  cases l with
  | nil => rfl
  | cons a t =>
    rw [List.getLast?_cons_cons, List.getLast?_cons]
    rfl

/-- With no hit among `ps` the loop runs to the end: `matched` and `parsed`
keep their values and `lastError` is the last reason, if any. -/
theorem patternLoop_no_hit (hdet : ∀ g t l, (Parse g t l).1 = f t l)
    (line : String) (ps : List Pattern) :
    ∀ (vars : LoopVars) (g : σ), (∀ p ∈ ps, ¬ Hit (f p.Pattern line)) →
      (patternLoop Parse line ps vars g).1 =
        { vars with lastError := ((reasons f line ps).getLast?).getD vars.lastError } := by
  induction ps with
  | nil => intro vars g _; rfl
  | cons p rest ih =>
    intro vars g hno
    have hrest : ∀ q ∈ rest, ¬ Hit (f q.Pattern line) :=
      fun q hq => hno q (List.mem_cons_of_mem _ hq)
    rcases return_cases (f p.Pattern line) with ⟨e, he⟩ | h | h
    · rw [patternLoop_cons_err hdet line p rest vars g e he, ih _ _ hrest,
        reasons_cons_err line p rest e he, getLast?_cons_getD]
    · exact absurd h (hno p (List.mem_cons_self _ _))
    · rw [patternLoop_cons_blank hdet line p rest vars g h, ih _ _ hrest,
        reasons_cons_ok line p rest h.1]

/-- The loop stops at the first hit: what follows it is not looked at, neither
for the loop variables nor for the engine state. -/
theorem patternLoop_first_hit (hdet : ∀ g t l, (Parse g t l).1 = f t l)
    (line : String) (pk : Pattern) (later : List Pattern) (hk : Hit (f pk.Pattern line))
    (xs : List Pattern) :
    ∀ (vars : LoopVars) (g : σ), (∀ p ∈ xs, ¬ Hit (f p.Pattern line)) →
      patternLoop Parse line (xs ++ pk :: later) vars g =
          patternLoop Parse line (xs ++ [pk]) vars g ∧
      (patternLoop Parse line (xs ++ pk :: later) vars g).1 =
        { matched := true, parsed := some (f pk.Pattern line).1,
          lastError := ((reasons f line xs).getLast?).getD vars.lastError } := by
  induction xs with
  | nil =>
    intro vars g _
    simp only [List.nil_append]
    rw [patternLoop_cons_hit hdet line pk later vars g hk,
      patternLoop_cons_hit hdet line pk [] vars g hk]
    exact ⟨rfl, rfl⟩
  | cons p rest ih =>
    intro vars g hno
    have hrest : ∀ q ∈ rest, ¬ Hit (f q.Pattern line) :=
      fun q hq => hno q (List.mem_cons_of_mem _ hq)
    simp only [List.cons_append]
    rcases return_cases (f p.Pattern line) with ⟨e, he⟩ | h | h
    · rw [patternLoop_cons_err hdet line p _ vars g e he,
        patternLoop_cons_err hdet line p _ vars g e he,
        reasons_cons_err line p rest e he, getLast?_cons_getD]
      exact ih _ _ hrest
    · exact absurd h (hno p (List.mem_cons_self _ _))
    · rw [patternLoop_cons_blank hdet line p _ vars g h,
        patternLoop_cons_blank hdet line p _ vars g h,
        reasons_cons_ok line p rest h.1]
      exact ih _ _ hrest

/-- A blank pattern can be taken out of the list without changing the loop
variables at the end. -/
theorem patternLoop_drop_blank (hdet : ∀ g t l, (Parse g t l).1 = f t l)
    (line : String) (p : Pattern) (ys : List Pattern) (hp : Blank (f p.Pattern line))
    (xs : List Pattern) :
    ∀ (vars : LoopVars) (g : σ),
      (patternLoop Parse line (xs ++ p :: ys) vars g).1 =
        (patternLoop Parse line (xs ++ ys) vars g).1 := by
  induction xs with
  | nil =>
    intro vars g
    simp only [List.nil_append]
    rw [patternLoop_cons_blank hdet line p ys vars g hp]
    exact patternLoop_vars_indep hdet hdet line ys vars _ _
  | cons q rest ih =>
    intro vars g
    simp only [List.cons_append]
    rcases return_cases (f q.Pattern line) with ⟨e, he⟩ | h | h
    · rw [patternLoop_cons_err hdet line q _ vars g e he,
        patternLoop_cons_err hdet line q _ vars g e he]
      exact ih _ _
    · rw [patternLoop_cons_hit hdet line q _ vars g h,
        patternLoop_cons_hit hdet line q _ vars g h]
    · rw [patternLoop_cons_blank hdet line q _ vars g h,
        patternLoop_cons_blank hdet line q _ vars g h]
      exact ih _ _

/-- Filtering out blank patterns does not change the loop variables at the end. -/
theorem patternLoop_filter_blank (hdet : ∀ g t l, (Parse g t l).1 = f t l)
    (line : String) (keep : Pattern → Bool) (ps : List Pattern) :
    ∀ (vars : LoopVars) (g : σ),
      (∀ p ∈ ps, keep p = false → Blank (f p.Pattern line)) →
      (patternLoop Parse line (ps.filter keep) vars g).1 =
        (patternLoop Parse line ps vars g).1 := by
  induction ps with
  | nil => intro vars g _; rfl
  | cons q rest ih =>
    intro vars g hb
    have hrest : ∀ p ∈ rest, keep p = false → Blank (f p.Pattern line) :=
      fun p hp => hb p (List.mem_cons_of_mem _ hp)
    cases hq : keep q with
    | false =>
      rw [List.filter_cons_of_neg (by simp [hq]),
        patternLoop_cons_blank hdet line q rest vars g (hb q (List.mem_cons_self _ _) hq),
        ih vars g hrest]
      exact patternLoop_vars_indep hdet hdet line rest vars _ _
    | true =>
      rw [List.filter_cons_of_pos (by simp [hq])]
      rcases return_cases (f q.Pattern line) with ⟨e, he⟩ | h | h
      · rw [patternLoop_cons_err hdet line q _ vars g e he,
          patternLoop_cons_err hdet line q _ vars g e he]
        exact ih _ _ hrest
      · rw [patternLoop_cons_hit hdet line q _ vars g h,
          patternLoop_cons_hit hdet line q _ vars g h]
      · rw [patternLoop_cons_blank hdet line q _ vars g h,
          patternLoop_cons_blank hdet line q _ vars g h]
        exact ih _ _ hrest

end InnerLoop

/-! ## One line -/

section OneLine

variable {σ : Type} {Parse : ParseFn σ} {f : String → String → ParseReturn}

theorem lineResult_empty (patterns : List Pattern) (i : Nat) (g : σ) :
    lineResult Parse patterns i "" g =
      ({ LineNumber := i + 1, Line := "", Parsed := none, Error := "Empty log line" }, g) := by
  simp [lineResult]

theorem lineResult_number_line (patterns : List Pattern) (i : Nat) (line : String) (g : σ) :
    (lineResult Parse patterns i line g).1.LineNumber = i + 1 ∧
      (lineResult Parse patterns i line g).1.Line = line := by
  unfold lineResult
  by_cases hl : line = ""
  · simp [hl]
  · simp only [hl, if_false]
    split <;> exact ⟨rfl, rfl⟩

/-- The Line Result is fixed by the loop variables. -/
theorem lineResult_congr {τ : Type} {Parse2 : ParseFn τ}
    (patterns patterns2 : List Pattern) (i : Nat) (line : String) (g : σ) (g2 : τ)
    (h : (patternLoop Parse line patterns LoopVars.zero g).1 =
      (patternLoop Parse2 line patterns2 LoopVars.zero g2).1) :
    (lineResult Parse patterns i line g).1 = (lineResult Parse2 patterns2 i line g2).1 := by
  unfold lineResult
  by_cases hl : line = ""
  · simp [hl]
  · simp only [hl, if_false]
    rw [h]

/-- The Line Result depends on the engine only through the values it returns. -/
theorem lineResult_indep {τ : Type} {Parse2 : ParseFn τ}
    (hdet : ∀ g t l, (Parse g t l).1 = f t l)
    (hdet2 : ∀ g t l, (Parse2 g t l).1 = f t l)
    (patterns : List Pattern) (i : Nat) (line : String) (g : σ) (g2 : τ) :
    (lineResult Parse patterns i line g).1 = (lineResult Parse2 patterns i line g2).1 :=
  lineResult_congr patterns patterns i line g g2
    (patternLoop_vars_indep hdet hdet2 line patterns _ _ _)

/-- The Line Result and engine state are fixed by what the inner loop returns. -/
theorem lineResult_congr_loop (patterns patterns2 : List Pattern) (i : Nat) (line : String)
    (g : σ)
    (h : patternLoop Parse line patterns LoopVars.zero g =
      patternLoop Parse line patterns2 LoopVars.zero g) :
    lineResult Parse patterns i line g = lineResult Parse patterns2 i line g := by
  unfold lineResult
  by_cases hl : line = ""
  · simp [hl]
  · simp only [hl, if_false]
    rw [h]

/-- The Line Result of a non-empty line whose first hit is `pk`. -/
theorem lineResult_hit (hdet : ∀ g t l, (Parse g t l).1 = f t l)
    (xs : List Pattern) (pk : Pattern) (later : List Pattern) (i : Nat) (line : String)
    (g : σ) (hline : line ≠ "") (hk : Hit (f pk.Pattern line))
    (hno : ∀ p ∈ xs, ¬ Hit (f p.Pattern line)) :
    (lineResult Parse (xs ++ pk :: later) i line g).1 =
      { LineNumber := i + 1, Line := line, Parsed := some (f pk.Pattern line).1,
        Error := "" } := by
  have hv := (patternLoop_first_hit hdet line pk later hk xs LoopVars.zero g hno).2
  unfold lineResult
  simp only [hline, if_false]
  rw [hv]
  simp

/-- The Line Result of a non-empty line that no pattern hits. -/
theorem lineResult_no_hit (hdet : ∀ g t l, (Parse g t l).1 = f t l)
    (patterns : List Pattern) (i : Nat) (line : String)
    (g : σ) (hline : line ≠ "") (hno : ∀ p ∈ patterns, ¬ Hit (f p.Pattern line)) :
    (lineResult Parse patterns i line g).1 =
      { LineNumber := i + 1, Line := line, Parsed := none,
        Error := ((reasons f line patterns).getLast?).getD "" } := by
  have hv := patternLoop_no_hit hdet line patterns LoopVars.zero g hno
  unfold lineResult
  simp only [hline, if_false]
  rw [hv]
  by_cases he : ((reasons f line patterns).getLast?).getD "" = ""
  · simp [LoopVars.zero, he]
  · simp [LoopVars.zero, he]

/-- A list with an element satisfying `P` splits at the first such element. -/
theorem exists_first {α : Type} (P : α → Prop) (ps : List α) (h : ∃ p ∈ ps, P p) :
    ∃ xs pk later, ps = xs ++ pk :: later ∧ P pk ∧ ∀ p ∈ xs, ¬ P p := by
  induction ps with
  | nil => obtain ⟨p, hp, _⟩ := h; simp at hp
  | cons q rest ih =>
    by_cases hq : P q
    · exact ⟨[], q, rest, rfl, hq, by simp⟩
    · have hrest : ∃ p ∈ rest, P p := by
        obtain ⟨p, hp, hP⟩ := h
        rcases List.mem_cons.mp hp with e | e
        · subst e; exact absurd hP hq
        · exact ⟨p, e, hP⟩
      obtain ⟨xs, pk, later, e, hk, hno⟩ := ih hrest
      refine ⟨q :: xs, pk, later, by rw [e]; rfl, hk, ?_⟩
      intro p hp
      rcases List.mem_cons.mp hp with e2 | e2
      · subst e2; exact hq
      · exact hno p e2

/-- Splitting a list at an index that holds `pk`. -/
theorem split_at_index {α : Type} (ps : List α) (k : Nat) (pk : α) (h : ps[k]? = some pk) :
    ps = ps.take k ++ pk :: ps.drop (k + 1) ∧ ps.take (k + 1) = ps.take k ++ [pk] := by
  obtain ⟨hlt, he⟩ := List.getElem?_eq_some_iff.mp h
  constructor
  · conv_lhs => rw [← List.take_append_drop k ps, List.drop_eq_getElem_cons hlt, he]
  · rw [List.take_succ, h]
    rfl

/-- Elements of `ps.take k` sit at an index below `k`. -/
theorem index_of_mem_take {α : Type} (ps : List α) (k : Nat) (p : α) (h : p ∈ ps.take k) :
    ∃ j, j < k ∧ ps[j]? = some p := by
  obtain ⟨j, hj⟩ := List.mem_iff_getElem?.mp h
  have hjk : j < k := by
    have := (List.getElem?_eq_some_iff.mp hj).1
    rw [List.length_take] at this
    omega
  exact ⟨j, hjk, by rw [← List.getElem?_take_of_lt hjk]; exact hj⟩

end OneLine

/-! ## All lines -/

section AllLines

variable {σ : Type} {Parse : ParseFn σ} {f : String → String → ParseReturn}

theorem linesLoop_length (patterns : List Pattern) (lines : List String) :
    ∀ (i : Nat) (acc : List ParsedResult) (g : σ),
      (linesLoop Parse patterns lines i acc g).1.length = acc.length + lines.length := by
  induction lines with
  | nil => intro i acc g; rfl
  | cons line rest ih =>
    intro i acc g
    rw [linesLoop, ih]
    simp only [List.length_append, List.length_cons, List.length_nil]
    omega

/-- What was already in `results` stays in place. -/
theorem linesLoop_acc (patterns : List Pattern) (lines : List String) :
    ∀ (i : Nat) (acc : List ParsedResult) (g : σ) (j : Nat), j < acc.length →
      (linesLoop Parse patterns lines i acc g).1[j]? = acc[j]? := by
  induction lines with
  | nil => intro i acc g j _; rfl
  | cons line rest ih =>
    intro i acc g j hj
    rw [linesLoop, ih _ _ _ j (by simp only [List.length_append]; omega),
      List.getElem?_append_left hj]

/-- The entry for the `j`-th remaining line is the Line Result of that line,
computed at index `i + j` from some engine state. -/
theorem linesLoop_get (patterns : List Pattern) (lines : List String) :
    ∀ (i : Nat) (acc : List ParsedResult) (g : σ) (j : Nat) (line : String),
      lines[j]? = some line →
      ∃ g1 : σ, (linesLoop Parse patterns lines i acc g).1[acc.length + j]? =
        some (lineResult Parse patterns (i + j) line g1).1 := by
  induction lines with
  | nil => intro i acc g j line h; simp at h
  | cons l rest ih =>
    intro i acc g j line h
    cases j with
    | zero =>
      simp only [List.getElem?_cons_zero, Option.some.injEq] at h
      subst h
      refine ⟨g, ?_⟩
      rw [linesLoop, linesLoop_acc _ _ _ _ _ _ (by simp), Nat.add_zero, Nat.add_zero,
        List.getElem?_append_right (Nat.le_refl _)]
      simp
    | succ j =>
      simp only [List.getElem?_cons_succ] at h
      obtain ⟨g1, hg1⟩ := ih (i + 1) (acc ++ [(lineResult Parse patterns i l g).1])
        (lineResult Parse patterns i l g).2 j line h
      refine ⟨g1, ?_⟩
      rw [linesLoop]
      simp only [List.length_append, List.length_cons, List.length_nil] at hg1
      have e1 : acc.length + (j + 1) = acc.length + (0 + 1) + j := by omega
      have e2 : i + (j + 1) = i + 1 + j := by omega
      rw [e1, e2]
      exact hg1

/-- An accepted request runs the outer loop from index 0 with no results yet. -/
theorem validatePatterns_accept (req : ValidationRequest) (g : σ)
    (hl : req.LogLines ≠ []) (hp : req.Patterns ≠ []) :
    validatePatterns Parse (some req) g =
      (⟨200, { Success := true,
               Results := (linesLoop Parse req.Patterns req.LogLines 0 [] g).1,
               Error := "" }⟩,
        (linesLoop Parse req.Patterns req.LogLines 0 [] g).2) := by
  have h1 : ¬ req.LogLines.length = 0 := fun h => hl (List.length_eq_zero.mp h)
  have h2 : ¬ req.Patterns.length = 0 := fun h => hp (List.length_eq_zero.mp h)
  simp only [validatePatterns, h1, h2, if_false]

theorem validatePatterns_reject (req : ValidationRequest) (g : σ)
    (h : req.LogLines = [] ∨ req.Patterns = []) :
    (validatePatterns Parse (some req) g).1.status = 400 ∧
    (validatePatterns Parse (some req) g).1.body.Success = false ∧
    (validatePatterns Parse (some req) g).1.body.Error ≠ "" ∧
    (validatePatterns Parse (some req) g).1.body.Results = [] ∧
    (validatePatterns Parse (some req) g).2 = g := by
  by_cases h1 : req.LogLines.length = 0
  · have e : validatePatterns Parse (some req) g =
        (⟨400, { Success := false, Results := [], Error := "No log lines provided" }⟩, g) := by
      simp only [validatePatterns, h1, if_true]
    rw [e]
    exact ⟨rfl, rfl, by show ("No log lines provided" : String) ≠ ""; decide, rfl, rfl⟩
  · have h2 : req.Patterns.length = 0 := by
      rcases h with h | h
      · exact absurd (by rw [h]; rfl) h1
      · rw [h]; rfl
    have e : validatePatterns Parse (some req) g =
        (⟨400, { Success := false, Results := [], Error := "No patterns provided" }⟩, g) := by
      simp only [validatePatterns, h1, h2, if_true, if_false]
    rw [e]
    exact ⟨rfl, rfl, by show ("No patterns provided" : String) ≠ ""; decide, rfl, rfl⟩

/-- Entry `i` of the results of a request, whenever it exists, is the Line
Result of line `i`. -/
theorem validatePatterns_get (req : ValidationRequest) (g : σ) (i : Nat) (r : ParsedResult)
    (h : (validatePatterns Parse (some req) g).1.body.Results[i]? = some r) :
    req.Patterns ≠ [] ∧ ∃ line, req.LogLines[i]? = some line ∧
      ∃ g1 : σ, r = (lineResult Parse req.Patterns i line g1).1 := by
  by_cases hrej : req.LogLines = [] ∨ req.Patterns = []
  · rw [(validatePatterns_reject req g hrej).2.2.2.1] at h
    simp at h
  · have hl : req.LogLines ≠ [] := fun e => hrej (Or.inl e)
    have hp : req.Patterns ≠ [] := fun e => hrej (Or.inr e)
    rw [validatePatterns_accept req g hl hp] at h
    simp only at h
    have hi : i < req.LogLines.length := by
      have := (List.getElem?_eq_some_iff.mp h).1
      rw [linesLoop_length] at this
      simpa using this
    refine ⟨hp, req.LogLines[i], List.getElem?_eq_getElem hi, ?_⟩
    obtain ⟨g1, hg1⟩ := @linesLoop_get _ Parse req.Patterns req.LogLines 0 [] g i
      req.LogLines[i] (List.getElem?_eq_getElem hi)
    simp only [List.length_nil, Nat.zero_add] at hg1
    rw [hg1] at h
    exact ⟨g1, (Option.some.inj h).symm⟩

/-- Entry `i` of the results as a function of the patterns, the values the
engine returns, the index and the line at that index, and of nothing else. -/
theorem validatePatterns_entry (hdet : ∀ g t l, (Parse g t l).1 = f t l)
    (req : ValidationRequest) (g : σ) (i : Nat) :
    (validatePatterns Parse (some req) g).1.body.Results[i]? =
      if req.Patterns = [] then none
      else (req.LogLines[i]?).map
        (fun line => (lineResult (pureEngine f) req.Patterns i line ()).1) := by
  by_cases hp : req.Patterns = []
  · rw [(validatePatterns_reject req g (Or.inr hp)).2.2.2.1]
    simp [hp]
  · by_cases hl : req.LogLines = []
    · rw [(validatePatterns_reject req g (Or.inl hl)).2.2.2.1]
      simp [hp, hl]
    · rw [validatePatterns_accept req g hl hp]
      simp only [hp, if_false]
      cases hi : req.LogLines[i]? with
      | none =>
        have hlen : req.LogLines.length ≤ i := List.getElem?_eq_none_iff.mp hi
        rw [Option.map_none', List.getElem?_eq_none_iff, linesLoop_length]
        simpa using hlen
      | some line =>
        obtain ⟨g1, hg1⟩ := @linesLoop_get _ Parse req.Patterns req.LogLines 0 [] g i
          line hi
        simp only [List.length_nil, Nat.zero_add] at hg1
        rw [hg1, Option.map_some']
        exact congrArg some
          (lineResult_indep hdet (fun _ _ _ => rfl) req.Patterns i line g1 ())

end AllLines

/-! ## The driver's contract -/

/-- C1: first match wins.  For a non-empty line, if `k` is the smallest index
whose pattern makes `Parse` return no error and a non-empty field map, the Line
Result has `Parsed` equal to exactly that map, and replacing everything after
index `k` by any other patterns changes neither the Line Result nor the engine
state: the later patterns are never handed to `Parse`. -/
theorem first_match_wins {σ : Type} (Parse : ParseFn σ) (f : String → String → ParseReturn)
    (hdet : ∀ g t l, (Parse g t l).1 = f t l)
    (patterns : List Pattern) (i : Nat) (line : String) (g : σ) (hline : line ≠ "")
    (k : Nat) (pk : Pattern) (hk : patterns[k]? = some pk)
    (hhit : Hit (f pk.Pattern line))
    (hmin : ∀ j p, j < k → patterns[j]? = some p → ¬ Hit (f p.Pattern line)) :
    (lineResult Parse patterns i line g).1.Parsed = some (f pk.Pattern line).1 ∧
    ∀ later : List Pattern,
      lineResult Parse (patterns.take (k + 1) ++ later) i line g =
        lineResult Parse patterns i line g := by
  obtain ⟨hsplit, htake⟩ := split_at_index patterns k pk hk
  have hno : ∀ p ∈ patterns.take k, ¬ Hit (f p.Pattern line) := by
    intro p hp
    obtain ⟨j, hj, hpj⟩ := index_of_mem_take patterns k p hp
    exact hmin j p hj hpj
  constructor
  · conv_lhs => rw [hsplit]
    rw [lineResult_hit hdet _ pk _ i line g hline hhit hno]
  · intro later
    apply lineResult_congr_loop
    conv_rhs => rw [hsplit]
    rw [htake, List.append_assoc, List.singleton_append,
      (patternLoop_first_hit hdet line pk later hhit _ LoopVars.zero g hno).1,
      (patternLoop_first_hit hdet line pk (patterns.drop (k + 1)) hhit _ LoopVars.zero g
        hno).1]

/-- C1, on a concrete request: `"lit"` is blank, `"bad"` is malformed, `"one"`
hits at index 2 and `"two"` would hit as well. -/
theorem first_match_wins_witness :
    (lineResult (logged toyParse)
        [⟨"a", "lit"⟩, ⟨"b", "bad"⟩, ⟨"c", "one"⟩, ⟨"d", "two"⟩] 0 "hello" []).1.Parsed =
      some [("a", "hello")] ∧
    ∀ later : List Pattern,
      lineResult (logged toyParse)
          (([⟨"a", "lit"⟩, ⟨"b", "bad"⟩, ⟨"c", "one"⟩, ⟨"d", "two"⟩] : List Pattern).take
            (2 + 1) ++ later) 0 "hello" [] =
        lineResult (logged toyParse)
          [⟨"a", "lit"⟩, ⟨"b", "bad"⟩, ⟨"c", "one"⟩, ⟨"d", "two"⟩] 0 "hello" [] :=
  first_match_wins (logged toyParse) toyParse (fun _ _ _ => rfl)
    [⟨"a", "lit"⟩, ⟨"b", "bad"⟩, ⟨"c", "one"⟩, ⟨"d", "two"⟩] 0 "hello" [] (by decide)
    2 ⟨"c", "one"⟩ rfl (by decide)
    (by
      intro j p hj hp
      match j, hj with
      | 0, _ =>
        simp only [List.getElem?_cons_zero, Option.some.injEq] at hp
        subst hp; decide
      | 1, _ =>
        simp only [List.getElem?_cons_succ, List.getElem?_cons_zero, Option.some.injEq] at hp
        subst hp; decide)

/-- C2: the empty line.  Whatever the patterns and whatever engine is used, the
Line Result of an empty line has `Error` equal to `"Empty log line"` and no
`Parsed`, and the engine state is handed back untouched (`Parse` is not called
for that line); in a request, the entry of every empty line is that result. -/
theorem empty_line_marker {σ : Type} (Parse : ParseFn σ) (patterns : List Pattern) (i : Nat)
    (g : σ) :
    lineResult Parse patterns i "" g =
      ({ LineNumber := i + 1, Line := "", Parsed := none, Error := "Empty log line" }, g) ∧
    ∀ lines : List String, lines[i]? = some "" → patterns ≠ [] →
      (validatePatterns Parse (some ⟨lines, patterns⟩) g).1.body.Results[i]? =
        some { LineNumber := i + 1, Line := "", Parsed := none, Error := "Empty log line" } := by
  refine ⟨lineResult_empty patterns i g, ?_⟩
  intro lines hi hp
  have hl : lines ≠ [] := by
    intro e; rw [e] at hi; simp at hi
  rw [validatePatterns_accept ⟨lines, patterns⟩ g hl hp]
  obtain ⟨g1, hg1⟩ := @linesLoop_get _ Parse patterns lines 0 [] g i "" hi
  simp only [List.length_nil, Nat.zero_add] at hg1
  rw [hg1, lineResult_empty]

/-- C2, on a concrete request whose second line is empty: the call log of the
engine, started as `[("seen", "before")]`, is unchanged by the empty line. -/
theorem empty_line_marker_witness :
    lineResult (logged toyParse) [⟨"c", "one"⟩, ⟨"b", "bad"⟩] 1 "" [("seen", "before")] =
      ({ LineNumber := 2, Line := "", Parsed := none, Error := "Empty log line" },
        [("seen", "before")]) ∧
    (validatePatterns (logged toyParse)
        (some ⟨["first", "", "third"], [⟨"c", "one"⟩, ⟨"b", "bad"⟩]⟩)
        [("seen", "before")]).1.body.Results[1]? =
      some { LineNumber := 2, Line := "", Parsed := none, Error := "Empty log line" } :=
  ⟨(empty_line_marker (logged toyParse) [⟨"c", "one"⟩, ⟨"b", "bad"⟩] 1
      [("seen", "before")]).1,
    (empty_line_marker (logged toyParse) [⟨"c", "one"⟩, ⟨"b", "bad"⟩] 1
      [("seen", "before")]).2 ["first", "", "third"] rfl (by decide)⟩

/-- C3: no pattern matches.  For a non-empty line on which no pattern returns a
non-empty field map without error, the Line Result has no `Parsed` and its
`Error` is the reason of the last pattern, in input order, whose `Parse`
returned an error, and `""` when none did; in particular a single pattern that
fails with a reason gives that reason as `Error` and no `Parsed`. -/
theorem no_match_last_reason {σ : Type} (Parse : ParseFn σ)
    (f : String → String → ParseReturn) (hdet : ∀ g t l, (Parse g t l).1 = f t l)
    (patterns : List Pattern) (i : Nat) (line : String) (g : σ) (hline : line ≠ "")
    (hnone : ∀ p ∈ patterns, ¬ Hit (f p.Pattern line)) :
    (lineResult Parse patterns i line g).1.Parsed = none ∧
    (lineResult Parse patterns i line g).1.Error =
      ((patterns.filterMap (fun p => (f p.Pattern line).2)).getLast?).getD "" ∧
    ((∀ p ∈ patterns, (f p.Pattern line).2 = none) →
      (lineResult Parse patterns i line g).1.Error = "") ∧
    (∀ (p : Pattern) (reason : String), patterns = [p] →
      (f p.Pattern line).2 = some reason →
      (lineResult Parse patterns i line g).1.Error = reason ∧
        (lineResult Parse patterns i line g).1.Parsed = none) := by
  have h := lineResult_no_hit hdet patterns i line g hline hnone
  have hE : (lineResult Parse patterns i line g).1.Error =
      ((patterns.filterMap (fun p => (f p.Pattern line).2)).getLast?).getD "" := by
    rw [h]; rfl
  have hP : (lineResult Parse patterns i line g).1.Parsed = none := by rw [h]
  refine ⟨hP, hE, ?_, ?_⟩
  · intro hall
    rw [hE]
    have : patterns.filterMap (fun p => (f p.Pattern line).2) = [] := by
      rw [List.filterMap_eq_nil_iff]
      exact hall
    rw [this]
    rfl
  · intro p reason hp hr
    refine ⟨?_, hP⟩
    rw [hE, hp]
    simp [List.filterMap_cons, hr]

/-- C3, on a concrete request: two malformed patterns around a blank one; the
reason reported is that of the later malformed pattern. -/
theorem no_match_last_reason_witness :
    (lineResult (logged toyParse) [⟨"b", "bad"⟩, ⟨"w", "worse"⟩, ⟨"a", "lit"⟩] 0 "hello"
        []).1.Parsed = none ∧
    (lineResult (logged toyParse) [⟨"b", "bad"⟩, ⟨"w", "worse"⟩, ⟨"a", "lit"⟩] 0 "hello"
        []).1.Error = "cyclic reference" :=
  ⟨(no_match_last_reason (logged toyParse) toyParse (fun _ _ _ => rfl)
      [⟨"b", "bad"⟩, ⟨"w", "worse"⟩, ⟨"a", "lit"⟩] 0 "hello" [] (by decide) (by decide)).1,
    (no_match_last_reason (logged toyParse) toyParse (fun _ _ _ => rfl)
      [⟨"b", "bad"⟩, ⟨"w", "worse"⟩, ⟨"a", "lit"⟩] 0 "hello" [] (by decide) (by decide)).2.1⟩

/-- C4: a malformed pattern does not stop the driver.  For a non-empty line, if
the pattern at index `j` makes `Parse` return an error and a later index `k` is
the first whose pattern returns a non-empty field map without error, the Line
Result has `Parsed` equal to the fields of pattern `k` and an empty `Error`:
the earlier reason is discarded. -/
theorem malformed_then_match {σ : Type} (Parse : ParseFn σ)
    (f : String → String → ParseReturn) (hdet : ∀ g t l, (Parse g t l).1 = f t l)
    (patterns : List Pattern) (i : Nat) (line : String) (g : σ) (hline : line ≠ "")
    (j k : Nat) (pj pk : Pattern) (reason : String) (hjk : j < k)
    (hj : patterns[j]? = some pj) (herr : (f pj.Pattern line).2 = some reason)
    (hk : patterns[k]? = some pk) (hhit : Hit (f pk.Pattern line))
    (hmin : ∀ m p, m < k → patterns[m]? = some p → ¬ Hit (f p.Pattern line)) :
    (lineResult Parse patterns i line g).1.Parsed = some (f pk.Pattern line).1 ∧
    (lineResult Parse patterns i line g).1.Error = "" := by
  obtain ⟨hsplit, _⟩ := split_at_index patterns k pk hk
  have hno : ∀ p ∈ patterns.take k, ¬ Hit (f p.Pattern line) := by
    intro p hp
    obtain ⟨m, hm, hpm⟩ := index_of_mem_take patterns k p hp
    exact hmin m p hm hpm
  have h := lineResult_hit hdet _ pk (patterns.drop (k + 1)) i line g hline hhit hno
  rw [← hsplit] at h
  rw [h]
  exact ⟨rfl, rfl⟩

/-- C4, on a concrete request: `"bad"` is malformed at index 0 and `"two"` is the
first hit at index 2. -/
theorem malformed_then_match_witness :
    (toyParse "bad" "hello").2 = some "unknown pattern" ∧
    (lineResult (logged toyParse) [⟨"b", "bad"⟩, ⟨"a", "lit"⟩, ⟨"d", "two"⟩] 4 "hello"
        []).1.Parsed = some [("a", "hello"), ("b", "x")] ∧
    (lineResult (logged toyParse) [⟨"b", "bad"⟩, ⟨"a", "lit"⟩, ⟨"d", "two"⟩] 4 "hello"
        []).1.Error = "" :=
  ⟨by decide,
    malformed_then_match (logged toyParse) toyParse (fun _ _ _ => rfl)
      [⟨"b", "bad"⟩, ⟨"a", "lit"⟩, ⟨"d", "two"⟩] 4 "hello" [] (by decide)
      0 2 ⟨"b", "bad"⟩ ⟨"d", "two"⟩ "unknown pattern" (by decide) rfl (by decide) rfl
      (by decide)
      (by
        intro m p hm hp
        match m, hm with
        | 0, _ =>
          simp only [List.getElem?_cons_zero, Option.some.injEq] at hp
          subst hp; decide
        | 1, _ =>
          simp only [List.getElem?_cons_succ, List.getElem?_cons_zero,
            Option.some.injEq] at hp
          subst hp; decide)⟩

/-- C5: a pattern whose `Parse` succeeds with an empty field map never counts
as a match.  The loop goes on to the next pattern with `matched`, `parsed` and
`lastError` as they were; taking such a pattern out of the list at any
position, or taking out any set of such patterns, leaves the Line Result
(`Parsed` and `Error` included) unchanged. -/
theorem blank_pattern_skipped {σ : Type} (Parse : ParseFn σ)
    (f : String → String → ParseReturn) (hdet : ∀ g t l, (Parse g t l).1 = f t l)
    (i : Nat) (line : String) (g : σ) :
    (∀ (p : Pattern) (rest : List Pattern) (vars : LoopVars),
      (f p.Pattern line).2 = none → (f p.Pattern line).1 = [] →
      patternLoop Parse line (p :: rest) vars g =
        patternLoop Parse line rest vars (Parse g p.Pattern line).2) ∧
    (∀ (xs ys : List Pattern) (p : Pattern),
      (f p.Pattern line).2 = none → (f p.Pattern line).1 = [] →
      (lineResult Parse (xs ++ p :: ys) i line g).1 =
        (lineResult Parse (xs ++ ys) i line g).1) ∧
    (∀ (patterns : List Pattern) (keep : Pattern → Bool),
      (∀ p ∈ patterns, keep p = false →
        (f p.Pattern line).2 = none ∧ (f p.Pattern line).1 = []) →
      (lineResult Parse (patterns.filter keep) i line g).1 =
        (lineResult Parse patterns i line g).1) := by
  refine ⟨?_, ?_, ?_⟩
  · intro p rest vars h1 h2
    exact patternLoop_cons_blank hdet line p rest vars g ⟨h1, h2⟩
  · intro xs ys p h1 h2
    exact lineResult_congr _ _ i line g g
      (patternLoop_drop_blank hdet line p ys ⟨h1, h2⟩ xs LoopVars.zero g)
  · intro patterns keep hb
    exact lineResult_congr _ _ i line g g
      (patternLoop_filter_blank hdet line keep patterns LoopVars.zero g hb)

/-- C5, on a concrete request: the blank pattern `"lit"` is taken out from
between a malformed pattern and a hit, and from a list with no hit. -/
theorem blank_pattern_skipped_witness :
    (lineResult (logged toyParse) ([⟨"b", "bad"⟩] ++ ⟨"a", "lit"⟩ :: [⟨"c", "one"⟩]) 0 "hello"
        []).1 =
      (lineResult (logged toyParse) ([⟨"b", "bad"⟩] ++ [⟨"c", "one"⟩]) 0 "hello" []).1 ∧
    (lineResult (logged toyParse) ([⟨"b", "bad"⟩] ++ ⟨"a", "lit"⟩ :: []) 0 "hello" []).1 =
      (lineResult (logged toyParse) ([⟨"b", "bad"⟩] ++ []) 0 "hello" []).1 :=
  ⟨(blank_pattern_skipped (logged toyParse) toyParse (fun _ _ _ => rfl) 0 "hello" []).2.1
      [⟨"b", "bad"⟩] [⟨"c", "one"⟩] ⟨"a", "lit"⟩ (by decide) (by decide),
    (blank_pattern_skipped (logged toyParse) toyParse (fun _ _ _ => rfl) 0 "hello" []).2.1
      [⟨"b", "bad"⟩] [] ⟨"a", "lit"⟩ (by decide) (by decide)⟩

/-- C6: one result per line.  For a request with at least one line and one
pattern, the results have exactly as many entries as there are lines, and the
entry at 0-based position `i` has `LineNumber = i + 1` and `Line` equal to the
original text of line `i`, empty lines included. -/
theorem one_result_per_line {σ : Type} (Parse : ParseFn σ) (req : ValidationRequest) (g : σ)
    (hl : req.LogLines ≠ []) (hp : req.Patterns ≠ []) :
    (validatePatterns Parse (some req) g).1.body.Results.length = req.LogLines.length ∧
    ∀ (i : Nat) (line : String), req.LogLines[i]? = some line →
      ∃ r : ParsedResult,
        (validatePatterns Parse (some req) g).1.body.Results[i]? = some r ∧
        r.LineNumber = i + 1 ∧ r.Line = line := by
  rw [validatePatterns_accept req g hl hp]
  constructor
  · show (linesLoop Parse req.Patterns req.LogLines 0 [] g).1.length = req.LogLines.length
    rw [linesLoop_length]
    simp
  · intro i line hi
    obtain ⟨g1, hg1⟩ := @linesLoop_get _ Parse req.Patterns req.LogLines 0 [] g i
      line hi
    simp only [List.length_nil, Nat.zero_add] at hg1
    exact ⟨_, hg1, lineResult_number_line req.Patterns i line g1⟩

/-- C6, on a concrete request of three lines, the second one empty. -/
theorem one_result_per_line_witness :
    (validatePatterns (logged toyParse)
        (some ⟨["first", "", "third"], [⟨"b", "bad"⟩, ⟨"c", "one"⟩]⟩) []).1.body.Results.length
      = 3 ∧
    ∃ r : ParsedResult,
      (validatePatterns (logged toyParse)
        (some ⟨["first", "", "third"], [⟨"b", "bad"⟩, ⟨"c", "one"⟩]⟩) []).1.body.Results[1]?
        = some r ∧ r.LineNumber = 1 + 1 ∧ r.Line = "" :=
  ⟨(one_result_per_line (logged toyParse)
      ⟨["first", "", "third"], [⟨"b", "bad"⟩, ⟨"c", "one"⟩]⟩ [] (by decide) (by decide)).1,
    (one_result_per_line (logged toyParse)
      ⟨["first", "", "third"], [⟨"b", "bad"⟩, ⟨"c", "one"⟩]⟩ [] (by decide) (by decide)).2
      1 "" rfl⟩

/-- C7: request-level rejection.  A decoded request is rejected (status 400,
`Success` false, a non-empty top-level `Error`, no per-line results, engine
state untouched so `Parse` is never called) exactly when it has no lines or no
patterns; every other request is answered with status 200, `Success` true, an
empty top-level `Error` and the per-line results of the outer loop, one per
line, for every engine whatever it returns. -/
theorem reject_iff_empty {σ : Type} (Parse : ParseFn σ) (req : ValidationRequest) (g : σ) :
    ((validatePatterns Parse (some req) g).1.body.Success = false ↔
      (req.LogLines = [] ∨ req.Patterns = [])) ∧
    ((req.LogLines = [] ∨ req.Patterns = []) →
      (validatePatterns Parse (some req) g).1.status = 400 ∧
      (validatePatterns Parse (some req) g).1.body.Success = false ∧
      (validatePatterns Parse (some req) g).1.body.Error ≠ "" ∧
      (validatePatterns Parse (some req) g).1.body.Results = [] ∧
      (validatePatterns Parse (some req) g).2 = g) ∧
    (¬ (req.LogLines = [] ∨ req.Patterns = []) →
      (validatePatterns Parse (some req) g).1.status = 200 ∧
      (validatePatterns Parse (some req) g).1.body.Success = true ∧
      (validatePatterns Parse (some req) g).1.body.Error = "" ∧
      (validatePatterns Parse (some req) g).1.body.Results =
        (linesLoop Parse req.Patterns req.LogLines 0 [] g).1 ∧
      (validatePatterns Parse (some req) g).1.body.Results.length = req.LogLines.length) := by
  have hacc : ¬ (req.LogLines = [] ∨ req.Patterns = []) →
      (validatePatterns Parse (some req) g).1.status = 200 ∧
      (validatePatterns Parse (some req) g).1.body.Success = true ∧
      (validatePatterns Parse (some req) g).1.body.Error = "" ∧
      (validatePatterns Parse (some req) g).1.body.Results =
        (linesLoop Parse req.Patterns req.LogLines 0 [] g).1 ∧
      (validatePatterns Parse (some req) g).1.body.Results.length = req.LogLines.length := by
    intro h
    have hl : req.LogLines ≠ [] := fun e => h (Or.inl e)
    have hp : req.Patterns ≠ [] := fun e => h (Or.inr e)
    rw [validatePatterns_accept req g hl hp]
    refine ⟨rfl, rfl, rfl, rfl, ?_⟩
    show (linesLoop Parse req.Patterns req.LogLines 0 [] g).1.length = req.LogLines.length
    rw [linesLoop_length]
    simp
  refine ⟨⟨?_, fun h => (validatePatterns_reject req g h).2.1⟩,
    validatePatterns_reject req g, hacc⟩
  intro hs
  by_contra hne
  rw [(hacc hne).2.1] at hs
  exact Bool.noConfusion hs

/-- C7, on three concrete requests: no lines, no patterns, and one line with a
malformed pattern only (accepted, the error stays in the Line Result). -/
theorem reject_iff_empty_witness :
    (validatePatterns (logged toyParse) (some ⟨[], [⟨"c", "one"⟩]⟩) []).1.body.Success
      = false ∧
    (validatePatterns (logged toyParse) (some ⟨["hello"], []⟩) []).1.body.Results = [] ∧
    (validatePatterns (logged toyParse) (some ⟨["hello"], [⟨"b", "bad"⟩]⟩) []).1.body.Success
      = true :=
  ⟨((reject_iff_empty (logged toyParse) ⟨[], [⟨"c", "one"⟩]⟩ []).2.1 (Or.inl rfl)).2.1,
    ((reject_iff_empty (logged toyParse) ⟨["hello"], []⟩ []).2.1 (Or.inr rfl)).2.2.2.1,
    ((reject_iff_empty (logged toyParse) ⟨["hello"], [⟨"b", "bad"⟩]⟩ []).2.2
      (by decide)).2.1⟩

/-- C8: the shape of a Line Result.  For the entry `r` at any position `i` of
the results, with `line` the request's line `i`: `Parsed` is present only when
the line is non-empty and some pattern made `Parse` return these fields, at
least one of them, without error; `Error` is non-empty only when the line is
empty or no pattern matched and some pattern returned this reason as its
error; and `r` never has both `Parsed` and a non-empty `Error`. -/
theorem line_result_shape {σ : Type} (Parse : ParseFn σ)
    (f : String → String → ParseReturn) (hdet : ∀ g t l, (Parse g t l).1 = f t l)
    (req : ValidationRequest) (g : σ) (i : Nat) (r : ParsedResult)
    (hr : (validatePatterns Parse (some req) g).1.body.Results[i]? = some r) :
    ∃ line, req.LogLines[i]? = some line ∧ r.Line = line ∧
      (∀ v, r.Parsed = some v →
        v ≠ [] ∧ line ≠ "" ∧
          ∃ p ∈ req.Patterns, (f p.Pattern line).2 = none ∧ (f p.Pattern line).1 = v) ∧
      (r.Error ≠ "" →
        line = "" ∨
          ((∀ p ∈ req.Patterns, ¬ Hit (f p.Pattern line)) ∧
            ∃ p ∈ req.Patterns, (f p.Pattern line).2 = some r.Error)) ∧
      ¬ (r.Parsed ≠ none ∧ r.Error ≠ "") := by
  obtain ⟨_, line, hline, g1, hrg⟩ := validatePatterns_get req g i r hr
  refine ⟨line, hline, ?_⟩
  by_cases hl : line = ""
  · subst hl
    rw [lineResult_empty] at hrg
    subst hrg
    refine ⟨rfl, ?_, fun _ => Or.inl rfl, ?_⟩
    · intro v hv; exact absurd hv (by simp)
    · intro h; exact h.1 rfl
  · by_cases hex : ∃ p ∈ req.Patterns, Hit (f p.Pattern line)
    · obtain ⟨xs, pk, later, hsplit, hk, hno⟩ :=
        exists_first (fun p => Hit (f p.Pattern line)) req.Patterns hex
      rw [hsplit, lineResult_hit hdet xs pk later i line g1 hl hk hno] at hrg
      subst hrg
      refine ⟨rfl, ?_, fun h => absurd rfl h, fun h => h.2 rfl⟩
      intro v hv
      simp only [Option.some.injEq] at hv
      subst hv
      refine ⟨hk.2, hl, pk, ?_, hk.1, rfl⟩
      rw [hsplit]
      simp
    · have hno : ∀ p ∈ req.Patterns, ¬ Hit (f p.Pattern line) :=
        fun p hp hh => hex ⟨p, hp, hh⟩
      rw [lineResult_no_hit hdet req.Patterns i line g1 hl hno] at hrg
      subst hrg
      refine ⟨rfl, ?_, ?_, fun h => h.1 rfl⟩
      · intro v hv; exact absurd hv (by simp)
      · intro he
        right
        refine ⟨hno, ?_⟩
        simp only at he ⊢
        cases hlast : (reasons f line req.Patterns).getLast? with
        | none => rw [hlast] at he; exact absurd rfl he
        | some e =>
          have hmem : e ∈ reasons f line req.Patterns := List.mem_of_getLast?_eq_some hlast
          obtain ⟨p, hp, hpe⟩ := List.mem_filterMap.mp hmem
          exact ⟨p, hp, by simpa using hpe⟩

/-- C8, on a concrete request: the entry of a line hit by `"one"`. -/
theorem line_result_shape_witness :
    ∃ line, (["hello", ""] : List String)[0]? = some line ∧
      (⟨1, "hello", some [("a", "hello")], ""⟩ : ParsedResult).Line = line ∧
      (∀ v, (⟨1, "hello", some [("a", "hello")], ""⟩ : ParsedResult).Parsed = some v →
        v ≠ [] ∧ line ≠ "" ∧
          ∃ p ∈ ([⟨"b", "bad"⟩, ⟨"c", "one"⟩] : List Pattern),
            (toyParse p.Pattern line).2 = none ∧ (toyParse p.Pattern line).1 = v) ∧
      ((⟨1, "hello", some [("a", "hello")], ""⟩ : ParsedResult).Error ≠ "" →
        line = "" ∨
          ((∀ p ∈ ([⟨"b", "bad"⟩, ⟨"c", "one"⟩] : List Pattern),
              ¬ Hit (toyParse p.Pattern line)) ∧
            ∃ p ∈ ([⟨"b", "bad"⟩, ⟨"c", "one"⟩] : List Pattern),
              (toyParse p.Pattern line).2 =
                some (⟨1, "hello", some [("a", "hello")], ""⟩ : ParsedResult).Error)) ∧
      ¬ ((⟨1, "hello", some [("a", "hello")], ""⟩ : ParsedResult).Parsed ≠ none ∧
        (⟨1, "hello", some [("a", "hello")], ""⟩ : ParsedResult).Error ≠ "") :=
  line_result_shape (logged toyParse) toyParse (fun _ _ _ => rfl)
    ⟨["hello", ""], [⟨"b", "bad"⟩, ⟨"c", "one"⟩]⟩ [] 0
    ⟨1, "hello", some [("a", "hello")], ""⟩ rfl

/-- C9: errors are local to one line.  Two requests with the same patterns,
answered by engines that return the same values for every (template, line),
whose lines agree at position `i`, have the same entry at position `i` of
their results, whatever the other lines are and whatever the engine states
are; that entry is the Line Result of line `i` alone, computed from fresh loop
variables. -/
theorem line_results_local {σ τ : Type} (Parse : ParseFn σ) (Parse2 : ParseFn τ)
    (f : String → String → ParseReturn)
    (hdet : ∀ g t l, (Parse g t l).1 = f t l) (hdet2 : ∀ g t l, (Parse2 g t l).1 = f t l)
    (patterns : List Pattern) (lines lines2 : List String) (g : σ) (g2 : τ) (i : Nat)
    (hagree : lines[i]? = lines2[i]?) :
    (validatePatterns Parse (some ⟨lines, patterns⟩) g).1.body.Results[i]? =
      (validatePatterns Parse2 (some ⟨lines2, patterns⟩) g2).1.body.Results[i]? ∧
    (∀ line, lines[i]? = some line → patterns ≠ [] →
      (validatePatterns Parse (some ⟨lines, patterns⟩) g).1.body.Results[i]? =
        some (lineResult (pureEngine f) patterns i line ()).1) := by
  constructor
  · rw [validatePatterns_entry hdet, validatePatterns_entry hdet2]
    simp only [hagree]
  · intro line hline hp
    rw [validatePatterns_entry hdet]
    simp only [hp, if_false, hline, Option.map_some']

/-- C9, on two concrete requests that share only their second line: one
surrounds it with an empty line and a line on which every pattern is
malformed or blank, the other with lines that match. -/
theorem line_results_local_witness :
    (validatePatterns (logged toyParse)
        (some ⟨["", "shared", "zzz"], [⟨"b", "bad"⟩, ⟨"c", "one"⟩]⟩) []).1.body.Results[1]? =
      (validatePatterns (pureEngine toyParse)
        (some ⟨["x", "shared"], [⟨"b", "bad"⟩, ⟨"c", "one"⟩]⟩) ()).1.body.Results[1]? :=
  (line_results_local (logged toyParse) (pureEngine toyParse) toyParse (fun _ _ _ => rfl)
    (fun _ _ _ => rfl) [⟨"b", "bad"⟩, ⟨"c", "one"⟩] ["", "shared", "zzz"] ["x", "shared"]
    [] () 1 rfl).1

/-- C10: the `WORD` example.  With the library `WORD -> \w+` and named captures
only, the template `%{WORD:user} logged in` compiles, matches the line
`alice logged in` with exactly the field map `{user: "alice"}` and does not
match the line `logged in`, with no error in either case; the driver reports
the first line with that `Parsed` and no `Error`, and the second with neither
`Parsed` nor `Error`. -/
theorem word_logged_in_example :
    Grok.tryMatch (Grok.compile "%{WORD:user} logged in" [("WORD", "\\w+")] true)
        "alice logged in" = Grok.MatchAttemptResult.Matched [("user", "alice")] ∧
    Grok.tryMatch (Grok.compile "%{WORD:user} logged in" [("WORD", "\\w+")] true)
        "logged in" = Grok.MatchAttemptResult.NoMatch ∧
    Grok.Parse [("WORD", "\\w+")] "%{WORD:user} logged in" "alice logged in" =
      ([("user", "alice")], none) ∧
    Grok.Parse [("WORD", "\\w+")] "%{WORD:user} logged in" "logged in" = ([], none) ∧
    (validatePatterns (pureEngine (Grok.Parse [("WORD", "\\w+")]))
        (some ⟨["alice logged in", "logged in"], [⟨"login", "%{WORD:user} logged in"⟩]⟩)
        ()).1.body.Results =
      [ { LineNumber := 1, Line := "alice logged in", Parsed := some [("user", "alice")],
          Error := "" },
        { LineNumber := 2, Line := "logged in", Parsed := none, Error := "" } ] := by
  refine ⟨by decide, by decide, by decide, by decide, by decide⟩

end GoGrokGo
